import Mathlib

/-!
Verification of the LAVA dispatcher-master
(`lava_scheduler_app/management/commands/dispatcher-master.py`).

The embedding models the three subsystems the claims are about:
the worker registry and control-plane handler (`controler_socket`),
the log-ingestion step (the body of `logging_socket`) with its
file-handle garbage collection, and the job-definition export round
trip (`export_definition`).

External collaborators (PyYAML, the Django ORM helpers in
`lava_scheduler_app.dbutils`, the filesystem) are not part of the
source file; where a claim depends on them they are modelled from the
spec, and each such definition says so in its doc comment.  Machine
effects (file opens/closes/writes, database lookups) are reified as an
explicit effect list so that claims about them can be stated.
-/

set_option linter.unusedVariables false

namespace DispatcherMaster

/-! ### Constants (lines 59-67 of the source) -/

def PROTOCOL_VERSION : Int := 1
def FD_TIMEOUT : Nat := 60
def TIMEOUT : Nat := 10
def DB_LIMIT : Nat := 10
def DISPATCHER_TIMEOUT : Nat := 3 * 10

/-! ### A structured-document model for YAML values

`yaml.load` / `yaml.dump` are external (PyYAML).  Modelled from the
spec: "the job's textual definition is round-tripped through a
structured parse ... and re-serialised — stripping comments and
normalising formatting".  Text is modelled as a token list, structured
values as `YVal`; `ydump` serialises and `yload` parses.  Comments and
formatting have no counterpart in the token model, which is exactly the
information the spec says the round trip loses. -/

mutual

inductive YVal : Type where
  | str : String → YVal
  | int : Int → YVal
  | list : YList → YVal
  | map : YMap → YVal
deriving DecidableEq, Repr

inductive YList : Type where
  | nil : YList
  | cons : YVal → YList → YList
deriving DecidableEq, Repr

inductive YMap : Type where
  | nil : YMap
  | cons : String → YVal → YMap → YMap
deriving DecidableEq, Repr

end

def YList.length : YList → Nat
  | .nil => 0
  | .cons _ t => t.length + 1

def YMap.length : YMap → Nat
  | .nil => 0
  | .cons _ _ t => t.length + 1

/-- A token of the serialised form of a structured document. -/
inductive YTok : Type where
  | tstr : String → YTok
  | tint : Int → YTok
  | tlist : Nat → YTok
  | tmap : Nat → YTok
deriving DecidableEq, Repr

mutual

/-- Modelled from the spec: `yaml.dump`, the canonical serialiser of a
structured value into text (text = token list). -/
def ydump : YVal → List YTok
  | .str s => [.tstr s]
  | .int n => [.tint n]
  | .list xs => .tlist xs.length :: ydumpList xs
  | .map kvs => .tmap kvs.length :: ydumpMap kvs

def ydumpList : YList → List YTok
  | .nil => []
  | .cons v t => ydump v ++ ydumpList t

def ydumpMap : YMap → List YTok
  | .nil => []
  | .cons k v t => .tstr k :: (ydump v ++ ydumpMap t)

end

mutual

/-- Fuel sufficient to parse the serialisation of a value. -/
def yfuel : YVal → Nat
  | .str _ => 1
  | .int _ => 1
  | .list xs => yfuelList xs + 1
  | .map kvs => yfuelMap kvs + 1

def yfuelList : YList → Nat
  | .nil => 1
  | .cons v t => max (yfuel v) (yfuelList t) + 1

def yfuelMap : YMap → Nat
  | .nil => 1
  | .cons _ v t => max (yfuel v) (yfuelMap t) + 1

end

mutual

/-- Fuelled recursive-descent parser for the serialised form. -/
def yparse : Nat → List YTok → Option (YVal × List YTok)
  | 0, _ => none
  | _ + 1, .tstr s :: r => some (.str s, r)
  | _ + 1, .tint n :: r => some (.int n, r)
  | fuel + 1, .tlist n :: r =>
    match yparseList fuel n r with
    | some (xs, r1) => some (.list xs, r1)
    | none => none
  | fuel + 1, .tmap n :: r =>
    match yparseMap fuel n r with
    | some (kvs, r1) => some (.map kvs, r1)
    | none => none
  | _ + 1, [] => none

def yparseList : Nat → Nat → List YTok → Option (YList × List YTok)
  | 0, _, _ => none
  | _ + 1, 0, r => some (.nil, r)
  | fuel + 1, n + 1, r =>
    match yparse fuel r with
    | some (v, r1) =>
      match yparseList fuel n r1 with
      | some (xs, r2) => some (.cons v xs, r2)
      | none => none
    | none => none

def yparseMap : Nat → Nat → List YTok → Option (YMap × List YTok)
  | 0, _, _ => none
  | _ + 1, 0, r => some (.nil, r)
  | fuel + 1, n + 1, .tstr k :: r =>
    match yparse fuel r with
    | some (v, r1) =>
      match yparseMap fuel n r1 with
      | some (kvs, r2) => some (.cons k v kvs, r2)
      | none => none
    | none => none
  | _ + 1, _ + 1, _ => none

end

/-- Modelled from the spec: `yaml.load`, the parser from text (token
list) back to a structured value; `none` models a `yaml.YAMLError`. -/
def yload (toks : List YTok) : Option YVal :=
  match yparse (2 * toks.length) toks with
  | some (v, []) => some v
  | _ => none

theorem yround_all (fuel : Nat) :
    (∀ (v : YVal) (rest : List YTok), yfuel v ≤ fuel →
      yparse fuel (ydump v ++ rest) = some (v, rest)) ∧
    (∀ (xs : YList) (rest : List YTok), yfuelList xs ≤ fuel →
      yparseList fuel xs.length (ydumpList xs ++ rest) = some (xs, rest)) ∧
    (∀ (kvs : YMap) (rest : List YTok), yfuelMap kvs ≤ fuel →
      yparseMap fuel kvs.length (ydumpMap kvs ++ rest) = some (kvs, rest)) := by
  induction fuel with
  | zero =>
    refine ⟨?_, ?_, ?_⟩
    · intro v rest h; cases v <;> simp [yfuel] at h
    · intro xs rest h; cases xs <;> simp [yfuelList] at h
    · intro kvs rest h; cases kvs <;> simp [yfuelMap] at h
  | succ f ih =>
    obtain ⟨ihV, ihL, ihM⟩ := ih
    refine ⟨?_, ?_, ?_⟩
    · intro v rest h
      cases v with
      | str s => simp [ydump, yparse]
      | int n => simp [ydump, yparse]
      | list xs =>
        have hx : yfuelList xs ≤ f := by simp [yfuel] at h; omega
        simp only [ydump, List.cons_append, yparse]
        rw [ihL xs rest hx]
      | map kvs =>
        have hx : yfuelMap kvs ≤ f := by simp [yfuel] at h; omega
        simp only [ydump, List.cons_append, yparse]
        rw [ihM kvs rest hx]
    · intro xs rest h
      cases xs with
      | nil => simp [ydumpList, YList.length, yparseList]
      | cons v t =>
        have hv : yfuel v ≤ f := by
          simp only [yfuelList, Nat.succ_le_succ_iff, Nat.max_le] at h; omega
        have ht : yfuelList t ≤ f := by
          simp only [yfuelList, Nat.succ_le_succ_iff, Nat.max_le] at h; omega
        simp only [ydumpList, YList.length, List.append_eq, List.append_assoc, yparseList,
          ihV v _ hv, ihL t rest ht]
    · intro kvs rest h
      cases kvs with
      | nil => simp [ydumpMap, YMap.length, yparseMap]
      | cons k v t =>
        have hv : yfuel v ≤ f := by
          simp only [yfuelMap, Nat.succ_le_succ_iff, Nat.max_le] at h; omega
        have ht : yfuelMap t ≤ f := by
          simp only [yfuelMap, Nat.succ_le_succ_iff, Nat.max_le] at h; omega
        simp only [ydumpMap, YMap.length, List.append_eq, List.cons_append, List.append_assoc,
          yparseMap, ihV v _ hv, ihM t rest ht]

theorem ydump_length_pos (v : YVal) : 1 ≤ (ydump v).length := by
  cases v <;> simp [ydump]

mutual

theorem yfuel_le_ydump (v : YVal) : yfuel v ≤ 2 * (ydump v).length := by
  cases v with
  | str s => simp [yfuel, ydump]
  | int n => simp [yfuel, ydump]
  | list xs =>
    have h := yfuelList_le_ydump xs
    simp only [yfuel, ydump, List.length_cons]
    omega
  | map kvs =>
    have h := yfuelMap_le_ydump kvs
    simp only [yfuel, ydump, List.length_cons]
    omega

theorem yfuelList_le_ydump (xs : YList) :
    yfuelList xs ≤ 2 * (ydumpList xs).length + 1 := by
  cases xs with
  | nil => simp [yfuelList, ydumpList]
  | cons v t =>
    have h1 := yfuel_le_ydump v
    have h2 := yfuelList_le_ydump t
    have h3 := ydump_length_pos v
    simp only [yfuelList, ydumpList, List.length_append]
    omega

theorem yfuelMap_le_ydump (kvs : YMap) :
    yfuelMap kvs ≤ 2 * (ydumpMap kvs).length + 1 := by
  cases kvs with
  | nil => simp [yfuelMap, ydumpMap]
  | cons k v t =>
    have h1 := yfuel_le_ydump v
    have h2 := yfuelMap_le_ydump t
    simp only [yfuelMap, ydumpMap, List.length_cons, List.length_append]
    omega

end

theorem yload_ydump (v : YVal) : yload (ydump v) = some v := by
  have hb := yfuel_le_ydump v
  have h := (yround_all (2 * (ydump v).length)).1 v [] hb
  simp only [List.append_nil] at h
  simp [yload, h]

/-! ### Structured-mapping helpers used by `export_definition` -/

/-- `m.getKey k` models the Python mapping subscript `m[k]` (first match). -/
def YMap.getKey : YMap → String → Option YVal
  | .nil, _ => none
  | .cons k v t, key => if k == key then some v else t.getKey key

/-- `hasKey m k` is true when the mapping binds `k`. -/
def hasKey : YMap → String → Bool
  | .nil, _ => false
  | .cons k _ t, key => k == key || hasKey t key

/-- `setKey m k v` models the Python dict assignment `m[k] = v`:
replace the binding in place when present, append it otherwise. -/
def setKey : YMap → String → YVal → YMap
  | .nil, key, v => .cons key v .nil
  | .cons k w t, key, v =>
    if k == key then .cons k v t else .cons k w (setKey t key v)

/-- `appendKV m k v` extends the mapping with one extra binding at the end. -/
def appendKV : YMap → String → YVal → YMap
  | .nil, key, v => .cons key v .nil
  | .cons k w t, key, v => .cons k w (appendKV t key v)

theorem setKey_of_not_hasKey :
    ∀ (m : YMap) (key : String) (v : YVal),
      hasKey m key = false → setKey m key v = appendKV m key v
  | .nil, key, v, _ => rfl
  | .cons k w t, key, v, h => by
    simp only [hasKey, Bool.or_eq_false_iff] at h
    simp only [setKey, appendKV, h.1, Bool.false_eq_true, if_false,
      setKey_of_not_hasKey t key v h.2]

/-! ### The job store and the worker registry

`TestJob` is the subset of the Django model observed by this file
(`status`, `is_pipeline`, `actual_device.worker_host.hostname`,
`output_dir`, `definition`, `pipeline_compatibility`).  The store is a
list of rows; `id` is the primary key. -/

inductive JobStatus : Type where
  | Submitted | Running | Canceling | Complete | Incomplete | Canceled
deriving DecidableEq, Repr

structure TestJob : Type where
  id : Int
  status : JobStatus
  is_pipeline : Bool
  /-- `actual_device.worker_host.hostname`; `none` models a job with no
  device or a device with no worker host. -/
  worker_host : Option String
  output_dir : String
  definition : List YTok
  pipeline_compatibility : Int
deriving DecidableEq, Repr

/-- `TestJob.objects.get(id=job_id)` (`DoesNotExist` is `none`). -/
def store_get (store : List TestJob) (job_id : Int) : Option TestJob :=
  store.find? (fun j => j.id == job_id)

/-- A row-level update of one job, the shallow form of
`select_for_update().get(id=job_id)` followed by a save. -/
def store_update (store : List TestJob) (job_id : Int) (f : TestJob → TestJob) :
    List TestJob :=
  store.map (fun j => if j.id == job_id then f j else j)

/-- The filter used by both `send_status` and
`_cancel_slave_dispatcher_jobs` (lines 181-183 and 441-444):
`actual_device__worker_host__hostname=hostname, is_pipeline=True,
status=TestJob.RUNNING`. -/
def bound_running (hostname : String) (j : TestJob) : Bool :=
  j.worker_host == some hostname && j.is_pipeline && j.status == JobStatus.Running

/-- Modelled from the spec: `cancel_job` from
`lava_scheduler_app.dbutils` (not in the source tree); §8.5 of the spec
puts a cancelled job "in a terminal or CANCELING state" and scenario S2
says it "transitions to CANCELED/INCOMPLETE (per store semantics)". -/
def cancel_job (j : TestJob) : TestJob :=
  { j with status := JobStatus.Canceled }

/-- Modelled from the spec: `fail_job` from
`lava_scheduler_app.dbutils` (not in the source tree); it applies the
terminal status passed by the caller (§4.3.2 step 3). -/
def fail_job (j : TestJob) (fail_msg : String) (job_status : JobStatus) : TestJob :=
  { j with status := job_status }

/-- Modelled from the spec: `start_job` from
`lava_scheduler_app.dbutils` (not in the source tree); §4.3.3:
"Atomically transition the job to RUNNING". -/
def start_job (j : TestJob) : TestJob :=
  { j with status := JobStatus.Running }

/-- Accumulator pass of the decimal parser. -/
def parse_digits : List Char → Nat → Option Nat
  | [], acc => some acc
  | c :: cs, acc =>
    if c.isDigit then parse_digits cs (acc * 10 + (c.toNat - '0'.toNat)) else none

/-- Decimal digits to a natural number; the empty string is an error. -/
def parse_nat (cs : List Char) : Option Nat :=
  match cs with
  | [] => none
  | _ => parse_digits cs 0

/-- The Python built-in `int()` applied to a message frame: decimal
integer with optional leading minus, `none` for a `ValueError`. -/
def str_to_int (s : String) : Option Int :=
  match s.data with
  | '-' :: cs => (parse_nat cs).map (fun n => -(n : Int))
  | cs => (parse_nat cs).map (fun n => (n : Int))

/-- `int(msg[2 + i])`: `none` models both the `IndexError` and the
`ValueError` the handlers catch together. -/
def frame_int (rest : List String) (i : Nat) : Option Int :=
  match rest[i]? with
  | none => none
  | some x => str_to_int x

/-- One entry of `self.dispatchers` (class `SlaveDispatcher`, lines 70-78). -/
structure SlaveDispatcher : Type where
  hostname : String
  last_msg : Nat
  online : Bool
deriving DecidableEq, Repr

/-- `SlaveDispatcher.__init__`: `last_msg = time.time() if online else 0`. -/
def SlaveDispatcher.init (now : Nat) (hostname : String) (online : Bool) :
    SlaveDispatcher :=
  { hostname := hostname, last_msg := if online then now else 0, online := online }

/-- `SlaveDispatcher.alive`: update `last_msg` only (lines 77-78). -/
def SlaveDispatcher.alive (d : SlaveDispatcher) (now : Nat) : SlaveDispatcher :=
  { d with last_msg := now }

/-- Lookup in a string-keyed association list (a Python dict). -/
def alookup {α : Type} (l : List (String × α)) (k : String) : Option α :=
  (l.find? (fun p => p.1 == k)).map (fun p => p.2)

/-- Dict assignment `l[k] = v`: replace in place or append. -/
def aset {α : Type} (l : List (String × α)) (k : String) (v : α) :
    List (String × α) :=
  if (l.find? (fun p => p.1 == k)).isSome then
    l.map (fun p => if p.1 == k then (k, v) else p)
  else
    l ++ [(k, v)]

/-- In-place mutation of the entry at key `k` (no-op when absent). -/
def aupdate {α : Type} (l : List (String × α)) (k : String) (f : α → α) :
    List (String × α) :=
  l.map (fun p => if p.1 == k then (p.1, f p.2) else p)

/-- The in-memory state shared by the control plane: the worker
registry `self.dispatchers` and the persistent job store. -/
structure MasterState : Type where
  dispatchers : List (String × SlaveDispatcher)
  store : List TestJob
deriving DecidableEq, Repr

/-! ### The control plane (`Command.controler_socket`, lines 303-425)

Each handler returns the new state, the multipart messages sent on the
control socket (`send_multipart`), and the Python return value.
Logging and filesystem writes (`description.yaml`) touch neither the
registry, the store, nor the socket, and are not represented.  The
whole message is a list of byte-string frames, `msg[0]` the sender's
hostname, `msg[1]` the action. -/

/-- `Command.send_status` (lines 177-187): one `STATUS(job_id)` per
RUNNING pipeline job whose device's worker host matches. -/
def send_status (hostname : String) (store : List TestJob) : List (List String) :=
  (store.filter (bound_running hostname)).map
    (fun j => [hostname, "STATUS", toString j.id])

/-- `Command.dispatcher_alive` (lines 189-197): register an unknown
hostname as online and send it a `STATUS` per running job, then mark
the entry alive (`last_msg := now` only). -/
def dispatcher_alive (now : Nat) (s : MasterState) (hostname : String) :
    MasterState × List (List String) :=
  let (disp1, sent) :=
    match alookup s.dispatchers hostname with
    | some _ => (s.dispatchers, ([] : List (List String)))
    | none =>
      (aset s.dispatchers hostname (SlaveDispatcher.init now hostname true),
       send_status hostname s.store)
  ({ s with dispatchers := aupdate disp1 hostname (fun d => d.alive now) }, sent)

/-- `Command._cancel_slave_dispatcher_jobs` (lines 427-448): one atomic
transaction cancelling every RUNNING pipeline job bound to the
dispatcher; the single pure store update is the transaction. -/
def cancel_slave_dispatcher_jobs (store : List TestJob) (hostname : String) :
    List TestJob :=
  store.map (fun j => if bound_running hostname j then cancel_job j else j)

/-- The `HELLO` / `HELLO_RETRY` branch (lines 314-352). -/
def handle_hello (now : Nat) (s : MasterState) (hostname action : String)
    (rest : List String) : MasterState × List (List String) × Bool :=
  match frame_int rest 0 with
  | none => (s, [], false)
  | some slave_version =>
    if slave_version != PROTOCOL_VERSION then (s, [], false)
    else
      let disp1 :=
        match alookup s.dispatchers hostname with
        | some _ => s.dispatchers
        | none => aset s.dispatchers hostname (SlaveDispatcher.init now hostname true)
      let store1 :=
        if action == "HELLO" then cancel_slave_dispatcher_jobs s.store hostname
        else s.store
      let disp2 := aupdate disp1 hostname (fun d => d.alive now)
      ({ dispatchers := disp2, store := store1 }, [[hostname, "HELLO_OK"]], true)

/-- The `PING` branch (lines 354-358). -/
def handle_ping (now : Nat) (s : MasterState) (hostname : String) :
    MasterState × List (List String) × Bool :=
  let r := dispatcher_alive now s hostname
  (r.1, [hostname, "PONG"] :: r.2, true)

/-- The `END` branch (lines 360-403): parse `job_id`, `exit_code`,
`error_msg`, `description`; finalise the job when it exists; always
reply `END_OK(job_id)`; then `dispatcher_alive`. -/
def handle_end (now : Nat) (s : MasterState) (hostname : String)
    (rest : List String) : MasterState × List (List String) × Bool :=
  match frame_int rest 0, frame_int rest 1, rest[2]?, rest[3]? with
  | some job_id, some job_status, some error_msg, some _description =>
    let status :=
      if job_status != 0 then JobStatus.Incomplete else JobStatus.Complete
    let store1 :=
      match store_get s.store job_id with
      | some _ =>
        store_update s.store job_id (fun j =>
          fail_job (if j.status == JobStatus.Canceling then cancel_job j else j)
            error_msg status)
      | none => s.store
    let r := dispatcher_alive now { s with store := store1 } hostname
    (r.1, [hostname, "END_OK", toString job_id] :: r.2, true)
  | _, _, _, _ => (s, [], false)

/-- The `START_OK` branch (lines 405-420). -/
def handle_start_ok (now : Nat) (s : MasterState) (hostname : String)
    (rest : List String) : MasterState × List (List String) × Bool :=
  match frame_int rest 0 with
  | none => (s, [], false)
  | some job_id =>
    let store1 :=
      match store_get s.store job_id with
      | some _ => store_update s.store job_id start_job
      | none => s.store
    let r := dispatcher_alive now { s with store := store1 } hostname
    (r.1, r.2, true)

/-- `Command.controler_socket` (lines 303-425).  `none` models the
uncaught `IndexError` on a message with fewer than two frames. -/
def controler_socket (now : Nat) (s : MasterState) (msg : List String) :
    Option (MasterState × List (List String) × Bool) :=
  match msg with
  | hostname :: action :: rest =>
    some (
      if action == "HELLO" || action == "HELLO_RETRY" then
        handle_hello now s hostname action rest
      else if action == "PING" then
        handle_ping now s hostname
      else if action == "END" then
        handle_end now s hostname rest
      else if action == "START_OK" then
        handle_start_ok now s hostname rest
      else
        (s, [], true))
  | _ => none

/-- The control messages whose handler reaches a registry update
(`SlaveDispatcher.alive` via line 352 or `dispatcher_alive`): a PING;
a well-formed END (parseable `job_id` and `exit_code`, frames 4 and 5
present); a well-formed START_OK; a version-matching HELLO or
HELLO_RETRY.  Derived from the control flow of `controler_socket`. -/
def touches_registry : List String → Bool
  | _ :: action :: rest =>
    if action == "HELLO" || action == "HELLO_RETRY" then
      frame_int rest 0 == some PROTOCOL_VERSION
    else if action == "PING" then true
    else if action == "END" then
      (frame_int rest 0).isSome && (frame_int rest 1).isSome &&
        rest[2]?.isSome && rest[3]?.isSome
    else if action == "START_OK" then (frame_int rest 0).isSome
    else false
  | _ => false

/-- `Command.export_definition` (lines 450-455): parse the textual
definition, inject `compatibility`, re-serialise.  A definition that is
not a structured mapping raises out of the function (`none`). -/
def export_definition (job : TestJob) : Option (List YTok) :=
  match yload job.definition with
  | some (.map job_def) =>
    some (ydump (.map (setKey job_def "compatibility"
      (.int job.pipeline_compatibility))))
  | _ => none

/-! ### Log ingestion (`Command.logging_socket`, lines 199-301) and the
file-handle garbage collection of the main loop (lines 684-690)

File-descriptor traffic and database lookups are reified as effects so
the claims about them can be stated.  Note that the source keeps two
job-handle tables: the attribute `self.jobs` (created in `__init__`,
swept by the main-loop GC) and the local variable `jobs` of
`logging_socket` (populated by ingestion); the model keeps both. -/

inductive LogEffect : Type where
  | dbLookup (job_id : String)
  | closeFile (path : String)
  | openFile (path : String)
  | mkdirp (path : String)
  | writeF (path : String) (data : String)
  | results (job_id : String)
deriving DecidableEq, Repr

def LogEffect.isDb : LogEffect → Bool
  | .dbLookup _ => true
  | _ => false

def LogEffect.isWrite : LogEffect → Bool
  | .writeF _ _ => true
  | _ => false

/-- Class `JobHandler` (lines 81-99); the two file objects are
represented by the paths they were opened on. -/
structure JobHandler : Type where
  output_dir : String
  output : String
  current_level : String
  sub_log : String
  last_usage : Nat
deriving DecidableEq, Repr

/-- `JobHandler.__init__(job, level, filename)`. -/
def JobHandler.init (now : Nat) (job : TestJob) (level : String)
    (filename : String) : JobHandler :=
  { output_dir := job.output_dir,
    output := job.output_dir ++ "/output.yaml",
    current_level := level,
    sub_log := filename,
    last_usage := now }

/-- Characters before the first `'.'`. -/
def take_until_dot : List Char → List Char
  | [] => []
  | c :: cs => if c = '.' then [] else c :: take_until_dot cs

/-- `level.split('.')[0]`: the prefix of `level` before its first dot. -/
def major_of (level : String) : String := ⟨take_until_dot level.data⟩

/-- The Python test `'/' in s`. -/
def has_slash (s : String) : Bool := s.data.contains '/'

/-- `os.path.join(output_dir, "pipeline", level.split('.')[0],
"%s-%s.yaml" % (level, name))`. -/
def sub_filename (output_dir level name : String) : String :=
  output_dir ++ "/pipeline/" ++ major_of level ++ "/" ++ level ++ "-" ++ name ++ ".yaml"

/-- `os.path.dirname` of `sub_filename`. -/
def sub_dirname (output_dir level : String) : String :=
  output_dir ++ "/pipeline/" ++ major_of level

/-- The mutable state the log-ingestion loop and the main-loop GC see:
`self.jobs` (`cmdJobs`), the thread-local `jobs` dict of
`logging_socket` (`threadJobs`), and the `self.current_level` attribute
that line 259 writes. -/
structure CommandLogState : Type where
  cmdJobs : List (String × JobHandler)
  threadJobs : List (String × JobHandler)
  cmd_current_level : Option String
deriving DecidableEq, Repr

/-- One four-frame message of the log socket.  `scanned` is modelled
from the spec: the result of `yaml.load(message)`, `none` being a
`yaml.YAMLError`. -/
structure LogFrame : Type where
  job_id : String
  level : String
  name : String
  message : String
  scanned : Option YVal
deriving Repr

/-- `message_lvl == "results"`. -/
def isResults : YVal → Bool
  | .str s => s == "results"
  | _ => false

/-- Lines 277-298: the `results` extraction and the final
`last_usage` touch plus the write to both sinks.  `acc` carries the
effects of handler resolution.  `none` models the impossible `KeyError`
on `jobs[job_id]`. -/
def logTail (now : Nat) (store : List TestJob) (st : CommandLogState)
    (f : LogFrame) (message_lvl : YVal) (acc : List LogEffect) :
    Option (CommandLogState × List LogEffect) :=
  let cont : List LogEffect → Option (CommandLogState × List LogEffect) :=
    fun acc2 =>
      match alookup st.threadJobs f.job_id with
      | none => none
      | some h =>
        let tj := aupdate st.threadJobs f.job_id (fun h0 => { h0 with last_usage := now })
        some ({ st with threadJobs := tj },
              acc2 ++ [.writeF h.output ("- " ++ f.message ++ "\n"),
                       .writeF h.sub_log ("- " ++ f.message ++ "\n")])
  if isResults message_lvl then
    match store.find? (fun j => toString j.id == f.job_id) with
    | none => some (st, acc ++ [.dbLookup f.job_id])
    | some _ => cont (acc ++ [.dbLookup f.job_id, .results f.job_id])
  else cont acc

/-- One pass of the body of `logging_socket` (lines 222-298) over a
four-frame message.  Dropped frames return the state unchanged with no
effects; `none` models the uncaught `TypeError` of subscripting a
non-mapping YAML document at line 237. -/
def logStep (now : Nat) (store : List TestJob) (st : CommandLogState)
    (f : LogFrame) : Option (CommandLogState × List LogEffect) :=
  match f.scanned with
  | none => some (st, [])
  | some (.map m) =>
    match m.getKey "lvl", m.getKey "msg" with
    | some message_lvl, some _message_msg =>
      if has_slash f.level || has_slash f.name then some (st, [])
      else
        match alookup st.threadJobs f.job_id with
        | some h =>
          if f.level != h.current_level then
            let filename := sub_filename h.output_dir f.level f.name
            let tj := aupdate st.threadJobs f.job_id (fun h0 => { h0 with sub_log := filename })
            let st1 := { st with cmd_current_level := some f.level, threadJobs := tj }
            logTail now store st1 f message_lvl
              [.closeFile h.sub_log, .mkdirp (sub_dirname h.output_dir f.level),
               .openFile filename]
          else
            logTail now store st f message_lvl []
        | none =>
          match store.find? (fun j => toString j.id == f.job_id) with
          | none => some (st, [.dbLookup f.job_id])
          | some job =>
            let filename := sub_filename job.output_dir f.level f.name
            let tj := aset st.threadJobs f.job_id (JobHandler.init now job f.level filename)
            let st1 := { st with threadJobs := tj }
            logTail now store st1 f message_lvl
              [.dbLookup f.job_id, .mkdirp (sub_dirname job.output_dir f.level),
               .openFile (job.output_dir ++ "/output.yaml"), .openFile filename]
    | _, _ => some (st, [])
  | some _ => none

/-- The file-handle garbage collection of one main-loop tick
(lines 684-690): it iterates `self.jobs` — `cmdJobs` — only. -/
def gcTick (now : Nat) (st : CommandLogState) : CommandLogState × List LogEffect :=
  let keep := st.cmdJobs.filter (fun p => !(decide (FD_TIMEOUT < now - p.2.last_usage)))
  let gone := st.cmdJobs.filter (fun p => decide (FD_TIMEOUT < now - p.2.last_usage))
  ({ st with cmdJobs := keep },
   (gone.map (fun p => [LogEffect.closeFile p.2.output, LogEffect.closeFile p.2.sub_log])).flatten)

/-! ### Helper lemmas about the association-list operations -/

theorem alookup_cons_pos {α : Type} (p : String × α) (t : List (String × α))
    (k : String) (hp : (p.1 == k) = true) : alookup (p :: t) k = some p.2 := by
  unfold alookup
  rw [List.find?_cons_of_pos t hp]
  rfl

theorem alookup_cons_neg {α : Type} (p : String × α) (t : List (String × α))
    (k : String) (hp : (p.1 == k) = false) : alookup (p :: t) k = alookup t k := by
  unfold alookup
  rw [List.find?_cons_of_neg t (by simp [hp])]

theorem alookup_aupdate_self {α : Type} (l : List (String × α)) (k : String)
    (f : α → α) : alookup (aupdate l k f) k = (alookup l k).map f := by
  induction l with
  | nil => rfl
  | cons p t ih =>
    by_cases hp : (p.1 == k) = true
    · have hk : p.1 = k := by simpa using hp
      have hmap : aupdate (p :: t) k f = (p.1, f p.2) :: aupdate t k f := by
        simp [aupdate, hk]
      rw [hmap, alookup_cons_pos (p.1, f p.2) _ k hp, alookup_cons_pos p t k hp]
      rfl
    · have hk : ¬ p.1 = k := by simpa using hp
      have hp' : (p.1 == k) = false := by simpa using hp
      have hmap : aupdate (p :: t) k f = p :: aupdate t k f := by
        simp [aupdate, hk]
      rw [hmap, alookup_cons_neg p _ k hp', alookup_cons_neg p t k hp']
      exact ih

theorem alookup_aset_self {α : Type} (l : List (String × α)) (k : String)
    (v : α) : alookup (aset l k v) k = some v := by
  induction l with
  | nil => simp [aset, alookup]
  | cons p t ih =>
    by_cases hp : (p.1 == k) = true
    · have hk : p.1 = k := by simpa using hp
      have hfind : (p :: t).find? (fun q => q.1 == k) = some p :=
        List.find?_cons_of_pos t hp
      have hs : aset (p :: t) k v
          = (k, v) :: t.map (fun q => if q.1 == k then (k, v) else q) := by
        simp [aset, hfind, hk]
      rw [hs, alookup_cons_pos (k, v) _ k (by simp)]
    · have hk : ¬ p.1 = k := by simpa using hp
      have hp' : (p.1 == k) = false := by simpa using hp
      have hfind : (p :: t).find? (fun q => q.1 == k) = t.find? (fun q => q.1 == k) :=
        List.find?_cons_of_neg t (by simp [hp'])
      by_cases ht : (t.find? (fun q => q.1 == k)).isSome = true
      · have hs : aset (p :: t) k v
            = p :: t.map (fun q => if q.1 == k then (k, v) else q) := by
          simp [aset, hfind, ht, hk]
        rw [hs, alookup_cons_neg p _ k hp']
        have ih' := ih
        rw [show aset t k v = t.map (fun q => if q.1 == k then (k, v) else q) from by
          simp [aset, ht]] at ih'
        exact ih'
      · have hs : aset (p :: t) k v = p :: (t ++ [(k, v)]) := by
          simp [aset, hfind, ht]
        rw [hs, alookup_cons_neg p _ k hp']
        have ih' := ih
        rw [show aset t k v = t ++ [(k, v)] from by simp [aset, ht]] at ih'
        exact ih'

theorem alookup_aupdate_other {α : Type} (l : List (String × α)) (k w : String)
    (f : α → α) (hk : k ≠ w) : alookup (aupdate l k f) w = alookup l w := by
  induction l with
  | nil => rfl
  | cons p t ih =>
    by_cases hpk : (p.1 == k) = true
    · have hpkp : p.1 = k := by simpa using hpk
      have hmap : aupdate (p :: t) k f = (p.1, f p.2) :: aupdate t k f := by
        simp [aupdate, hpkp]
      have hpw : (p.1 == w) = false := by
        have hne : p.1 ≠ w := by rw [hpkp]; exact hk
        simpa using hne
      rw [hmap, alookup_cons_neg (p.1, f p.2) _ w hpw, alookup_cons_neg p t w hpw]
      exact ih
    · have hpkp : ¬ p.1 = k := by simpa using hpk
      have hmap : aupdate (p :: t) k f = p :: aupdate t k f := by
        simp [aupdate, hpkp]
      by_cases hpw : (p.1 == w) = true
      · rw [hmap, alookup_cons_pos p _ w hpw, alookup_cons_pos p t w hpw]
      · have hpw' : (p.1 == w) = false := by simpa using hpw
        rw [hmap, alookup_cons_neg p _ w hpw', alookup_cons_neg p t w hpw']
        exact ih

theorem alookup_map_set_other {α : Type} (l : List (String × α)) (k w : String)
    (v : α) (hk : k ≠ w) :
    alookup (l.map (fun p => if p.1 == k then (k, v) else p)) w = alookup l w := by
  induction l with
  | nil => rfl
  | cons p t ih =>
    simp only [List.map_cons]
    by_cases hpk : (p.1 == k) = true
    · have hpkp : p.1 = k := by simpa using hpk
      have hite : (if (p.1 == k) = true then (k, v) else p) = (k, v) := by
        simp [hpkp]
      have hkw : ((k : String) == w) = false := by simpa using hk
      have hpw : (p.1 == w) = false := by rw [hpkp]; exact hkw
      rw [hite, alookup_cons_neg (k, v) _ w hkw, alookup_cons_neg p t w hpw]
      exact ih
    · have hpkp : ¬ p.1 = k := by simpa using hpk
      have hite : (if (p.1 == k) = true then (k, v) else p) = p := by
        simp [hpkp]
      rw [hite]
      by_cases hpw : (p.1 == w) = true
      · rw [alookup_cons_pos p _ w hpw, alookup_cons_pos p t w hpw]
      · have hpw' : (p.1 == w) = false := by simpa using hpw
        rw [alookup_cons_neg p _ w hpw', alookup_cons_neg p t w hpw']
        exact ih

theorem alookup_append_single_other {α : Type} (l : List (String × α))
    (k w : String) (v : α) (hk : k ≠ w) :
    alookup (l ++ [(k, v)]) w = alookup l w := by
  induction l with
  | nil =>
    have hkw : ((k : String) == w) = false := by simpa using hk
    simp only [List.nil_append]
    rw [alookup_cons_neg (k, v) [] w hkw]
  | cons p t ih =>
    simp only [List.cons_append]
    by_cases hpw : (p.1 == w) = true
    · rw [alookup_cons_pos p _ w hpw, alookup_cons_pos p t w hpw]
    · have hpw' : (p.1 == w) = false := by simpa using hpw
      rw [alookup_cons_neg p _ w hpw', alookup_cons_neg p t w hpw']
      exact ih

theorem alookup_aset_other {α : Type} (l : List (String × α)) (k w : String)
    (v : α) (hk : k ≠ w) : alookup (aset l k v) w = alookup l w := by
  by_cases hpres : (l.find? (fun p => p.1 == k)).isSome = true
  · rw [show aset l k v = l.map (fun p => if p.1 == k then (k, v) else p) from by
      simp [aset, hpres]]
    exact alookup_map_set_other l k w v hk
  · rw [show aset l k v = l ++ [(k, v)] from by simp [aset, hpres]]
    exact alookup_append_single_other l k w v hk

theorem aupdate_alive_keeps_online (l : List (String × SlaveDispatcher)) (now : Nat)
    (hostname w : String) (e : SlaveDispatcher) (he : alookup l w = some e) :
    ∃ e', alookup (aupdate l hostname (fun d => d.alive now)) w = some e' ∧
      e'.online = e.online := by
  by_cases hw : hostname = w
  · subst hw
    rw [alookup_aupdate_self, he]
    exact ⟨_, rfl, rfl⟩
  · rw [alookup_aupdate_other l hostname w _ hw]
    exact ⟨e, he, rfl⟩

theorem aset_keeps_other (l : List (String × SlaveDispatcher)) (hostname w : String)
    (v : SlaveDispatcher) (e : SlaveDispatcher)
    (hnone : alookup l hostname = none) (he : alookup l w = some e) :
    alookup (aset l hostname v) w = some e := by
  by_cases hw : hostname = w
  · subst hw
    rw [hnone] at he
    exact Option.noConfusion he
  · rw [alookup_aset_other l hostname w v hw]
    exact he

theorem dispatcher_alive_keeps_online (now : Nat) (s : MasterState)
    (hostname w : String) (e : SlaveDispatcher)
    (he : alookup s.dispatchers w = some e) :
    ∃ e', alookup (dispatcher_alive now s hostname).1.dispatchers w = some e' ∧
      e'.online = e.online := by
  unfold dispatcher_alive
  cases hsd : alookup s.dispatchers hostname with
  | some d0 =>
    dsimp only
    exact aupdate_alive_keeps_online s.dispatchers now hostname w e he
  | none =>
    dsimp only
    exact aupdate_alive_keeps_online _ now hostname w e
      (aset_keeps_other s.dispatchers hostname w _ e hsd he)

theorem handle_hello_keeps_online (now : Nat) (s : MasterState)
    (hostname action : String) (rest : List String) (w : String)
    (e : SlaveDispatcher) (he : alookup s.dispatchers w = some e) :
    ∃ e', alookup (handle_hello now s hostname action rest).1.dispatchers w
        = some e' ∧ e'.online = e.online := by
  unfold handle_hello
  cases hfi : frame_int rest 0 with
  | none => exact ⟨e, he, rfl⟩
  | some v =>
    dsimp only
    by_cases hv : (v != PROTOCOL_VERSION) = true
    · rw [if_pos hv]
      exact ⟨e, he, rfl⟩
    · rw [if_neg hv]
      dsimp only
      cases hsd : alookup s.dispatchers hostname with
      | some d0 =>
        dsimp only
        exact aupdate_alive_keeps_online s.dispatchers now hostname w e he
      | none =>
        dsimp only
        exact aupdate_alive_keeps_online _ now hostname w e
          (aset_keeps_other s.dispatchers hostname w _ e hsd he)

theorem handle_end_keeps_online (now : Nat) (s : MasterState) (hostname : String)
    (rest : List String) (w : String) (e : SlaveDispatcher)
    (he : alookup s.dispatchers w = some e) :
    ∃ e', alookup (handle_end now s hostname rest).1.dispatchers w = some e' ∧
      e'.online = e.online := by
  unfold handle_end
  cases h0 : frame_int rest 0 with
  | none => exact ⟨e, he, rfl⟩
  | some jid =>
    cases h1 : frame_int rest 1 with
    | none => exact ⟨e, he, rfl⟩
    | some code =>
      cases h2 : rest[2]? with
      | none => exact ⟨e, he, rfl⟩
      | some emsg =>
        cases h3 : rest[3]? with
        | none => exact ⟨e, he, rfl⟩
        | some dstr =>
          dsimp only
          exact dispatcher_alive_keeps_online now _ hostname w e he

theorem handle_start_ok_keeps_online (now : Nat) (s : MasterState)
    (hostname : String) (rest : List String) (w : String) (e : SlaveDispatcher)
    (he : alookup s.dispatchers w = some e) :
    ∃ e', alookup (handle_start_ok now s hostname rest).1.dispatchers w = some e' ∧
      e'.online = e.online := by
  unfold handle_start_ok
  cases h0 : frame_int rest 0 with
  | none => exact ⟨e, he, rfl⟩
  | some jid =>
    dsimp only
    exact dispatcher_alive_keeps_online now _ hostname w e he

theorem dispatcher_alive_store (now : Nat) (s : MasterState) (hostname : String) :
    (dispatcher_alive now s hostname).1.store = s.store := by
  unfold dispatcher_alive
  cases alookup s.dispatchers hostname <;> rfl

theorem dispatcher_alive_sent (now : Nat) (s : MasterState) (hostname : String) :
    (dispatcher_alive now s hostname).2 = [] ∨
    (dispatcher_alive now s hostname).2 = send_status hostname s.store := by
  unfold dispatcher_alive
  cases alookup s.dispatchers hostname
  · right; rfl
  · left; rfl

theorem send_status_no_endok (hostname : String) (store : List TestJob) :
    (send_status hostname store).filter (fun m => m[1]? == some "END_OK") = [] := by
  rw [List.filter_eq_nil_iff]
  intro m hm
  simp only [send_status, List.mem_map] at hm
  obtain ⟨j, _, rfl⟩ := hm
  simp

theorem frame_int_cons_zero (x : String) (rest : List String) :
    frame_int (x :: rest) 0 = str_to_int x := by
  simp [frame_int]

theorem frame_int_cons_one (x y : String) (rest : List String) :
    frame_int (x :: y :: rest) 1 = str_to_int y := by
  simp [frame_int]

/-! ### Claims about the control plane -/

/-- C1: for every well-formed `END(job_id, exit_code, error_msg,
description)` message, the handler replies with exactly one
`END_OK(job_id)` to the sending worker — whether or not `job_id` is in
the job store — and an unknown `job_id` leaves the store unchanged. -/
theorem end_replies_exactly_one_end_ok (now : Nat) (s : MasterState)
    (hostname jstr cstr emsg dstr : String) (extra : List String)
    (jid code : Int) (hj : str_to_int jstr = some jid) (hc : str_to_int cstr = some code) :
    ∃ s1 sent,
      controler_socket now s (hostname :: "END" :: jstr :: cstr :: emsg :: dstr :: extra)
        = some (s1, sent, true) ∧
      sent.filter (fun m => m[1]? == some "END_OK") = [[hostname, "END_OK", toString jid]] ∧
      (store_get s.store jid = none → s1.store = s.store) := by
  have hdisp : controler_socket now s
      (hostname :: "END" :: jstr :: cstr :: emsg :: dstr :: extra)
      = some (handle_end now s hostname (jstr :: cstr :: emsg :: dstr :: extra)) := rfl
  rw [hdisp]
  unfold handle_end
  rw [frame_int_cons_zero, frame_int_cons_one, hj, hc]
  simp only [List.getElem?_cons_succ, List.getElem?_cons_zero]
  refine ⟨_, _, rfl, ?_, ?_⟩
  · set s' : MasterState :=
      { s with store :=
          match store_get s.store jid with
          | some _ =>
            store_update s.store jid (fun j =>
              fail_job (if j.status == JobStatus.Canceling then cancel_job j else j)
                emsg (if code != 0 then JobStatus.Incomplete else JobStatus.Complete))
          | none => s.store } with hs'
    have hhead : (([hostname, "END_OK", toString jid] : List String)[1]? ==
        some "END_OK") = true := by simp
    rcases dispatcher_alive_sent now s' hostname with h | h <;>
      simp [List.filter_cons, hhead, h, send_status_no_endok]
  · intro hnone
    rw [dispatcher_alive_store]
    simp [hnone]

/-- C1 witness: a concrete well-formed END for an unknown job id. -/
theorem end_replies_exactly_one_end_ok_witness :
    ∃ s1 sent,
      controler_socket 0 ⟨[], []⟩ ["w1", "END", "7", "0", "e", "d"]
        = some (s1, sent, true) ∧
      sent.filter (fun m => m[1]? == some "END_OK") = [["w1", "END_OK", toString (7 : Int)]] ∧
      (store_get ([] : List TestJob) 7 = none → s1.store = [] ) :=
  end_replies_exactly_one_end_ok 0 ⟨[], []⟩ "w1" "7" "0" "e" "d" [] 7 0
    (by decide) (by decide)

/-- C2: a `HELLO(v)` or `HELLO_RETRY(v)` with `v ≠ PROTOCOL_VERSION`
produces no reply and leaves the whole state — in particular the worker
registry — unchanged. -/
theorem hello_version_mismatch_no_state_change (now : Nat) (s : MasterState)
    (hostname action vstr : String) (rest : List String) (v : Int)
    (ha : action = "HELLO" ∨ action = "HELLO_RETRY")
    (hv : str_to_int vstr = some v) (hne : v ≠ PROTOCOL_VERSION) :
    controler_socket now s (hostname :: action :: vstr :: rest) = some (s, [], false) := by
  have hb : (v != PROTOCOL_VERSION) = true := by
    simp [bne, hne]
  rcases ha with rfl | rfl <;>
  · show some (handle_hello now s hostname _ (vstr :: rest)) = some (s, [], false)
    unfold handle_hello
    rw [frame_int_cons_zero, hv]
    simp [hb]

/-- C2 witness: `HELLO(2)` from a concrete state. -/
theorem hello_version_mismatch_no_state_change_witness :
    controler_socket 5 ⟨[("w1", ⟨"w1", 1, true⟩)], []⟩ ["w2", "HELLO", "2"]
      = some (⟨[("w1", ⟨"w1", 1, true⟩)], []⟩, [], false) :=
  hello_version_mismatch_no_state_change 5 ⟨[("w1", ⟨"w1", 1, true⟩)], []⟩
    "w2" "HELLO" "2" [] 2 (Or.inl rfl) (by decide) (by decide)

/-- C3: a version-matching `HELLO` from worker `w` cancels — in the one
store update that models the atomic transaction — exactly the jobs that
are RUNNING, pipeline, and bound to `w`; `HELLO_RETRY` leaves the set
of RUNNING jobs bound to `w` unchanged. -/
theorem hello_cancels_running_jobs (now : Nat) (s : MasterState)
    (hostname vstr : String) (rest : List String) (hv : str_to_int vstr = some 1) :
    (∃ s1 sent, controler_socket now s (hostname :: "HELLO" :: vstr :: rest)
        = some (s1, sent, true) ∧
      s1.store = s.store.map
        (fun j => if bound_running hostname j then cancel_job j else j)) ∧
    (∃ s2 sent2, controler_socket now s (hostname :: "HELLO_RETRY" :: vstr :: rest)
        = some (s2, sent2, true) ∧
      s2.store.filter (bound_running hostname) = s.store.filter (bound_running hostname)) := by
  constructor
  · show ∃ s1 sent, some (handle_hello now s hostname "HELLO" (vstr :: rest)) = _ ∧ _
    unfold handle_hello
    rw [frame_int_cons_zero, hv]
    refine ⟨_, _, rfl, ?_⟩
    rfl
  · show ∃ s2 sent2, some (handle_hello now s hostname "HELLO_RETRY" (vstr :: rest)) = _ ∧ _
    unfold handle_hello
    rw [frame_int_cons_zero, hv]
    refine ⟨_, _, rfl, ?_⟩
    rfl

/-- C3 witness: one bound running job is cancelled by HELLO and kept by
HELLO_RETRY. -/
theorem hello_cancels_running_jobs_witness :
    (∃ s1 sent, controler_socket 3
        ⟨[], [⟨7, JobStatus.Running, true, some "w1", "/o", [], 0⟩]⟩
        ["w1", "HELLO", "1"] = some (s1, sent, true) ∧
      s1.store = [⟨7, JobStatus.Running, true, some "w1", "/o", [], 0⟩].map
        (fun j => if bound_running "w1" j then cancel_job j else j)) ∧
    (∃ s2 sent2, controler_socket 3
        ⟨[], [⟨7, JobStatus.Running, true, some "w1", "/o", [], 0⟩]⟩
        ["w1", "HELLO_RETRY", "1"] = some (s2, sent2, true) ∧
      s2.store.filter (bound_running "w1")
        = [⟨7, JobStatus.Running, true, some "w1", "/o", [], 0⟩].filter (bound_running "w1")) :=
  hello_cancels_running_jobs 3 ⟨[], [⟨7, JobStatus.Running, true, some "w1", "/o", [], 0⟩]⟩
    "w1" "1" [] (by decide)

/-- A registry holding one known worker that has gone offline
(`online = false`, `last_msg = 5`). -/
def offline_worker_state : MasterState :=
  { dispatchers := [("w1", { hostname := "w1", last_msg := 5, online := false })],
    store := [] }

/-- C4 counterexample: a `PING` from a known worker whose entry has
`online = false` updates `last_msg` to the current time but leaves
`online = false` — the claim says the flag flips back to true, and at
this concrete input it does not. -/
theorem ping_offline_worker_counterexample :
    (controler_socket 10 offline_worker_state ["w1", "PING"]).map
        (fun r => alookup r.1.dispatchers "w1")
      = some (some { hostname := "w1", last_msg := 10, online := false }) ∧
    ¬ (controler_socket 10 offline_worker_state ["w1", "PING"]).map
        (fun r => (alookup r.1.dispatchers "w1").map (fun d => d.online))
      = some (some true) := by
  constructor
  · rfl
  · intro h
    simp only [show controler_socket 10 offline_worker_state ["w1", "PING"]
        = some (handle_ping 10 offline_worker_state "w1") from rfl,
      Option.map_some] at h
    exact absurd (Option.some.inj h) (by decide)

/-- C4 amended: for a hostname already registered (in particular with
`online = false`), (1) no control-plane handler — any verb, well-formed
or not — ever changes the `online` flag of any existing registry
entry, so an offline entry is never flipped back to true; and (2) every
well-formed message from that hostname that touches the registry
(PING, well-formed END or START_OK, version-matching HELLO or
HELLO_RETRY) sets the entry's `last_msg` to the current time, leaving
the rest of the entry — its `online` flag included — unchanged. -/
theorem registry_message_keeps_online_flag (now : Nat) (s : MasterState)
    (hostname action : String) (rest : List String) (d : SlaveDispatcher)
    (hd : alookup s.dispatchers hostname = some d) :
    (∀ (w : String) (e : SlaveDispatcher) (r : MasterState × List (List String) × Bool),
       alookup s.dispatchers w = some e →
       controler_socket now s (hostname :: action :: rest) = some r →
       ∃ e', alookup r.1.dispatchers w = some e' ∧ e'.online = e.online) ∧
    (touches_registry (hostname :: action :: rest) = true →
       ∃ s1 sent b, controler_socket now s (hostname :: action :: rest)
           = some (s1, sent, b) ∧
         alookup s1.dispatchers hostname = some { d with last_msg := now }) := by
  constructor
  · intro w e r he hr
    unfold controler_socket at hr
    dsimp only at hr
    injection hr with hr
    subst hr
    by_cases h1 : (action == "HELLO" || action == "HELLO_RETRY") = true
    · rw [if_pos h1]
      exact handle_hello_keeps_online now s hostname action rest w e he
    · rw [if_neg h1]
      by_cases h2 : (action == "PING") = true
      · rw [if_pos h2]
        unfold handle_ping
        dsimp only
        exact dispatcher_alive_keeps_online now s hostname w e he
      · rw [if_neg h2]
        by_cases h3 : (action == "END") = true
        · rw [if_pos h3]
          exact handle_end_keeps_online now s hostname rest w e he
        · rw [if_neg h3]
          by_cases h4 : (action == "START_OK") = true
          · rw [if_pos h4]
            exact handle_start_ok_keeps_online now s hostname rest w e he
          · rw [if_neg h4]
            exact ⟨e, he, rfl⟩
  · intro ht
    unfold touches_registry at ht
    unfold controler_socket
    dsimp only at ht ⊢
    by_cases h1 : (action == "HELLO" || action == "HELLO_RETRY") = true
    · rw [if_pos h1] at ht ⊢
      have hfi : frame_int rest 0 = some PROTOCOL_VERSION := by simpa using ht
      unfold handle_hello
      rw [hfi]
      dsimp only
      simp only [show (PROTOCOL_VERSION != PROTOCOL_VERSION) = false from rfl,
        Bool.false_eq_true, if_false]
      rw [hd]
      dsimp only
      refine ⟨_, _, _, rfl, ?_⟩
      rw [alookup_aupdate_self, hd]
      rfl
    · rw [if_neg h1] at ht ⊢
      by_cases h2 : (action == "PING") = true
      · rw [if_pos h2]
        unfold handle_ping dispatcher_alive
        rw [hd]
        dsimp only
        refine ⟨_, _, _, rfl, ?_⟩
        rw [alookup_aupdate_self, hd]
        rfl
      · rw [if_neg h2] at ht ⊢
        by_cases h3 : (action == "END") = true
        · rw [if_pos h3] at ht ⊢
          simp only [Bool.and_eq_true] at ht
          obtain ⟨⟨⟨hi0, hi1⟩, hi2⟩, hi3⟩ := ht
          cases hf0 : frame_int rest 0 with
          | none => rw [hf0] at hi0; exact absurd hi0 (by simp)
          | some jid =>
            cases hf1 : frame_int rest 1 with
            | none => rw [hf1] at hi1; exact absurd hi1 (by simp)
            | some code =>
              cases hf2 : rest[2]? with
              | none => rw [hf2] at hi2; exact absurd hi2 (by simp)
              | some emsg =>
                cases hf3 : rest[3]? with
                | none => rw [hf3] at hi3; exact absurd hi3 (by simp)
                | some dstr =>
                  unfold handle_end
                  rw [hf0, hf1, hf2, hf3]
                  dsimp only
                  unfold dispatcher_alive
                  dsimp only
                  rw [hd]
                  dsimp only
                  refine ⟨_, _, _, rfl, ?_⟩
                  rw [alookup_aupdate_self, hd]
                  rfl
        · rw [if_neg h3] at ht ⊢
          by_cases h4 : (action == "START_OK") = true
          · rw [if_pos h4] at ht ⊢
            cases hf0 : frame_int rest 0 with
            | none => rw [hf0] at ht; exact absurd ht (by simp)
            | some jid =>
              unfold handle_start_ok
              rw [hf0]
              dsimp only
              unfold dispatcher_alive
              dsimp only
              rw [hd]
              dsimp only
              refine ⟨_, _, _, rfl, ?_⟩
              rw [alookup_aupdate_self, hd]
              rfl
          · rw [if_neg h4] at ht
            exact absurd ht (by simp)

/-- C4 amended witness: the offline worker, pinged at time 10, keeps
`online = false` in both clauses. -/
theorem registry_message_keeps_online_flag_witness :
    (∃ e', alookup (handle_ping 10 offline_worker_state "w1").1.dispatchers "w1"
        = some e' ∧
      e'.online = ({ hostname := "w1", last_msg := 5, online := false } :
        SlaveDispatcher).online) ∧
    (∃ s1 sent b, controler_socket 10 offline_worker_state ["w1", "PING"]
        = some (s1, sent, b) ∧
      alookup s1.dispatchers "w1"
        = some { hostname := "w1", last_msg := 10, online := false }) :=
  ⟨(registry_message_keeps_online_flag 10 offline_worker_state "w1" "PING" []
      { hostname := "w1", last_msg := 5, online := false } (by decide)).1
      "w1" { hostname := "w1", last_msg := 5, online := false }
      (handle_ping 10 offline_worker_state "w1") (by decide) rfl,
   (registry_message_keeps_online_flag 10 offline_worker_state "w1" "PING" []
      { hostname := "w1", last_msg := 5, online := false } (by decide)).2
      (by decide)⟩

/-- A state with no registered workers and one RUNNING pipeline job
bound to `w1`. -/
def unknown_worker_state : MasterState :=
  { dispatchers := [],
    store := [{ id := 7, status := JobStatus.Running, is_pipeline := true,
                worker_host := some "w1", output_dir := "/o", definition := [],
                pipeline_compatibility := 0 }] }

/-- C7 counterexample: a `HELLO(1)` from a hostname absent from the
registry registers the worker online but sends no `STATUS` message,
although a RUNNING pipeline job is bound to that worker — refuting the
claim that every verb, HELLO included, triggers the STATUS resync. -/
theorem hello_unknown_host_sends_no_status :
    (controler_socket 3 unknown_worker_state ["w1", "HELLO", "1"]).map
        (fun r => (r.2.1.filter (fun m => m[1]? == some "STATUS"),
                   (alookup r.1.dispatchers "w1").map (fun d => d.online)))
      = some ([], some true) := by
  rfl

/-- C7 amended: a well-formed `PING`, `END` or `START_OK` from an
unregistered hostname registers the worker online and sends one
`STATUS(job_id)` per RUNNING pipeline job bound to it in the store as
the handler leaves it; a version-matching `HELLO` or `HELLO_RETRY`
also registers the worker online but sends only `HELLO_OK` and never
any `STATUS`. -/
theorem unknown_host_status_resync (now : Nat) (s : MasterState)
    (hostname : String) (hd : alookup s.dispatchers hostname = none) :
    (∃ s1, controler_socket now s [hostname, "PING"]
        = some (s1, [hostname, "PONG"] ::
            (s.store.filter (bound_running hostname)).map
              (fun j => [hostname, "STATUS", toString j.id]), true) ∧
      (alookup s1.dispatchers hostname).map (fun d => d.online) = some true) ∧
    (∀ (jstr cstr emsg dstr : String) (extra : List String) (jid code : Int),
      str_to_int jstr = some jid → str_to_int cstr = some code →
      ∃ s1, controler_socket now s
          (hostname :: "END" :: jstr :: cstr :: emsg :: dstr :: extra)
        = some (s1, [hostname, "END_OK", toString jid] ::
            (s1.store.filter (bound_running hostname)).map
              (fun j => [hostname, "STATUS", toString j.id]), true) ∧
      (alookup s1.dispatchers hostname).map (fun d => d.online) = some true) ∧
    (∀ (jstr : String) (extra : List String) (jid : Int),
      str_to_int jstr = some jid →
      ∃ s1, controler_socket now s (hostname :: "START_OK" :: jstr :: extra)
        = some (s1, (s1.store.filter (bound_running hostname)).map
              (fun j => [hostname, "STATUS", toString j.id]), true) ∧
      (alookup s1.dispatchers hostname).map (fun d => d.online) = some true) ∧
    (∀ (vstr : String) (rest : List String), str_to_int vstr = some 1 →
      (∃ s1, controler_socket now s (hostname :: "HELLO" :: vstr :: rest)
          = some (s1, [[hostname, "HELLO_OK"]], true) ∧
        (alookup s1.dispatchers hostname).map (fun d => d.online) = some true) ∧
      (∃ s2, controler_socket now s (hostname :: "HELLO_RETRY" :: vstr :: rest)
          = some (s2, [[hostname, "HELLO_OK"]], true) ∧
        (alookup s2.dispatchers hostname).map (fun d => d.online) = some true)) := by
  refine ⟨?_, ?_, ?_, ?_⟩
  · have hdisp : controler_socket now s [hostname, "PING"]
        = some (handle_ping now s hostname) := rfl
    rw [hdisp]
    unfold handle_ping dispatcher_alive
    rw [hd]
    refine ⟨_, rfl, ?_⟩
    rw [alookup_aupdate_self, alookup_aset_self]
    rfl
  · intro jstr cstr emsg dstr extra jid code hj hc
    have hdisp : controler_socket now s
        (hostname :: "END" :: jstr :: cstr :: emsg :: dstr :: extra)
        = some (handle_end now s hostname (jstr :: cstr :: emsg :: dstr :: extra)) := rfl
    rw [hdisp]
    unfold handle_end
    rw [frame_int_cons_zero, frame_int_cons_one, hj, hc]
    simp only [List.getElem?_cons_succ, List.getElem?_cons_zero]
    unfold dispatcher_alive
    dsimp only
    rw [hd]
    dsimp only
    refine ⟨_, rfl, ?_⟩
    rw [alookup_aupdate_self, alookup_aset_self]
    rfl
  · intro jstr extra jid hj
    have hdisp : controler_socket now s (hostname :: "START_OK" :: jstr :: extra)
        = some (handle_start_ok now s hostname (jstr :: extra)) := rfl
    rw [hdisp]
    unfold handle_start_ok
    rw [frame_int_cons_zero, hj]
    dsimp only
    unfold dispatcher_alive
    dsimp only
    rw [hd]
    dsimp only
    refine ⟨_, rfl, ?_⟩
    rw [alookup_aupdate_self, alookup_aset_self]
    rfl
  · intro vstr rest hv
    constructor
    · have hdisp : controler_socket now s (hostname :: "HELLO" :: vstr :: rest)
          = some (handle_hello now s hostname "HELLO" (vstr :: rest)) := rfl
      rw [hdisp]
      unfold handle_hello
      rw [frame_int_cons_zero, hv]
      simp only [show ((1 : Int) != PROTOCOL_VERSION) = false from by decide,
        Bool.false_eq_true, if_false]
      rw [hd]
      refine ⟨_, rfl, ?_⟩
      rw [alookup_aupdate_self, alookup_aset_self]
      rfl
    · have hdisp : controler_socket now s (hostname :: "HELLO_RETRY" :: vstr :: rest)
          = some (handle_hello now s hostname "HELLO_RETRY" (vstr :: rest)) := rfl
      rw [hdisp]
      unfold handle_hello
      rw [frame_int_cons_zero, hv]
      simp only [show ((1 : Int) != PROTOCOL_VERSION) = false from by decide,
        Bool.false_eq_true, if_false]
      rw [hd]
      refine ⟨_, rfl, ?_⟩
      rw [alookup_aupdate_self, alookup_aset_self]
      rfl

/-- C7 amended witness: every clause exercised against the state with
one RUNNING bound job, the END/START_OK/HELLO instances fully applied
at concrete frames. -/
theorem unknown_host_status_resync_witness :
    (∃ s1, controler_socket 3 unknown_worker_state ["w1", "PING"]
        = some (s1, ["w1", "PONG"] ::
            (unknown_worker_state.store.filter (bound_running "w1")).map
              (fun j => ["w1", "STATUS", toString j.id]), true) ∧
      (alookup s1.dispatchers "w1").map (fun d => d.online) = some true) ∧
    (∃ s1, controler_socket 3 unknown_worker_state ["w1", "END", "5", "0", "e", "d"]
        = some (s1, ["w1", "END_OK", toString (5 : Int)] ::
            (s1.store.filter (bound_running "w1")).map
              (fun j => ["w1", "STATUS", toString j.id]), true) ∧
      (alookup s1.dispatchers "w1").map (fun d => d.online) = some true) ∧
    (∃ s1, controler_socket 3 unknown_worker_state ["w1", "START_OK", "5"]
        = some (s1, (s1.store.filter (bound_running "w1")).map
              (fun j => ["w1", "STATUS", toString j.id]), true) ∧
      (alookup s1.dispatchers "w1").map (fun d => d.online) = some true) ∧
    (∃ s1, controler_socket 3 unknown_worker_state ["w1", "HELLO", "1"]
        = some (s1, [["w1", "HELLO_OK"]], true) ∧
      (alookup s1.dispatchers "w1").map (fun d => d.online) = some true) ∧
    (∃ s2, controler_socket 3 unknown_worker_state ["w1", "HELLO_RETRY", "1"]
        = some (s2, [["w1", "HELLO_OK"]], true) ∧
      (alookup s2.dispatchers "w1").map (fun d => d.online) = some true) :=
  ⟨(unknown_host_status_resync 3 unknown_worker_state "w1" (by decide)).1,
   (unknown_host_status_resync 3 unknown_worker_state "w1" (by decide)).2.1
     "5" "0" "e" "d" [] 5 0 (by decide) (by decide),
   (unknown_host_status_resync 3 unknown_worker_state "w1" (by decide)).2.2.1
     "5" [] 5 (by decide),
   ((unknown_host_status_resync 3 unknown_worker_state "w1" (by decide)).2.2.2
     "1" [] (by decide)).1,
   ((unknown_host_status_resync 3 unknown_worker_state "w1" (by decide)).2.2.2
     "1" [] (by decide)).2⟩

/-! ### Claims about log ingestion -/

/-- C8: a log frame whose `level` or `name` contains `'/'` never
creates a handle, constructs a path, or produces any effect: the step
either drops it with the state unchanged, or (for a frame whose message
is a non-mapping document) dies on the earlier subscript error — in
both cases before any path is built from the frame. -/
theorem slash_frame_dropped_before_paths (now : Nat) (store : List TestJob)
    (st : CommandLogState) (f : LogFrame)
    (h : has_slash f.level = true ∨ has_slash f.name = true) :
    logStep now store st f = some (st, []) ∨ logStep now store st f = none := by
  have hcond : (has_slash f.level || has_slash f.name) = true := by
    rcases h with h | h <;> simp [h]
  unfold logStep
  cases hsc : f.scanned with
  | none => exact Or.inl rfl
  | some v =>
    cases v with
    | str s => exact Or.inr rfl
    | int n => exact Or.inr rfl
    | list xs => exact Or.inr rfl
    | map m =>
      dsimp only
      cases hk1 : m.getKey "lvl" with
      | none =>
        cases hk2 : m.getKey "msg" with
        | none => exact Or.inl rfl
        | some mv => exact Or.inl rfl
      | some lvl =>
        cases hk2 : m.getKey "msg" with
        | none => exact Or.inl rfl
        | some mv =>
          left
          dsimp only
          rw [if_pos hcond]

/-- C8 witness: a frame with a slash in `level` is dropped. -/
theorem slash_frame_dropped_before_paths_witness :
    logStep 0 [] ⟨[], [], none⟩
        ⟨"1", "../evil", "x", "m",
         some (.map (.cons "lvl" (.str "info") (.cons "msg" (.str "a") .nil)))⟩
      = some (⟨[], [], none⟩, []) ∨
    logStep 0 [] ⟨[], [], none⟩
        ⟨"1", "../evil", "x", "m",
         some (.map (.cons "lvl" (.str "info") (.cons "msg" (.str "a") .nil)))⟩
      = none :=
  slash_frame_dropped_before_paths 0 [] ⟨[], [], none⟩ _ (Or.inl (by decide))

/-- C10: once a handle exists for `job_id`, an accepted non-results
frame is written to both sinks with no store lookup at all (no
hypothesis relates `job_id` to the store), while an accepted results
frame for a job id absent from the store performs exactly the one store
lookup and is dropped without writing to either sink. -/
theorem handle_hit_skips_store (now : Nat) (store : List TestJob)
    (st : CommandLogState) (f : LogFrame) (h : JobHandler) (m : YMap)
    (lvl mv : YVal)
    (hh : alookup st.threadJobs f.job_id = some h)
    (hsc : f.scanned = some (.map m))
    (hl : m.getKey "lvl" = some lvl)
    (hm : m.getKey "msg" = some mv)
    (hlv : has_slash f.level = false)
    (hnm : has_slash f.name = false) :
    (isResults lvl = false →
      ∃ st' effs, logStep now store st f = some (st', effs) ∧
        effs.filter LogEffect.isDb = [] ∧
        effs.filter LogEffect.isWrite =
          [.writeF h.output ("- " ++ f.message ++ "\n"),
           .writeF (if f.level == h.current_level then h.sub_log
                    else sub_filename h.output_dir f.level f.name)
             ("- " ++ f.message ++ "\n")]) ∧
    (isResults lvl = true →
      store.find? (fun j => toString j.id == f.job_id) = none →
      ∃ st' effs, logStep now store st f = some (st', effs) ∧
        effs.filter LogEffect.isWrite = [] ∧
        effs.filter LogEffect.isDb = [.dbLookup f.job_id]) := by
  unfold logStep
  rw [hsc]
  dsimp only
  rw [hl, hm]
  dsimp only
  simp only [hlv, hnm, Bool.or_self, Bool.false_eq_true, if_false]
  rw [hh]
  dsimp only
  constructor
  · intro hres
    by_cases hlev : (f.level == h.current_level) = true
    · have hne : (f.level != h.current_level) = false := by
        simp [bne, hlev]
      simp only [hne, Bool.false_eq_true, if_false]
      unfold logTail
      simp only [hres, Bool.false_eq_true, if_false]
      rw [hh]
      refine ⟨_, _, rfl, ?_, ?_⟩
      · simp [LogEffect.isDb]
      · simp [LogEffect.isWrite, hlev]
    · have hne : (f.level != h.current_level) = true := by
        simp only [bne]
        simpa using hlev
      simp only [hne, if_true]
      unfold logTail
      simp only [hres, Bool.false_eq_true, if_false]
      rw [show alookup (aupdate st.threadJobs f.job_id
            (fun h0 => { h0 with sub_log := sub_filename h.output_dir f.level f.name }))
            f.job_id
          = some { h with sub_log := sub_filename h.output_dir f.level f.name } from by
        rw [alookup_aupdate_self, hh]; rfl]
      refine ⟨_, _, rfl, ?_, ?_⟩
      · simp [LogEffect.isDb]
      · have : (f.level == h.current_level) = false := by simpa using hlev
        simp [LogEffect.isWrite, this]
  · intro hres hfind
    by_cases hlev : (f.level == h.current_level) = true
    · have hne : (f.level != h.current_level) = false := by
        simp [bne, hlev]
      simp only [hne, Bool.false_eq_true, if_false]
      unfold logTail
      simp only [hres, if_true, hfind]
      refine ⟨_, _, rfl, ?_, ?_⟩
      · simp [LogEffect.isWrite]
      · simp [LogEffect.isDb]
    · have hne : (f.level != h.current_level) = true := by
        simp only [bne]
        simpa using hlev
      simp only [hne, if_true]
      unfold logTail
      simp only [hres, if_true, hfind]
      refine ⟨_, _, rfl, ?_, ?_⟩
      · simp [LogEffect.isWrite]
      · simp [LogEffect.isDb]

/-- C10 witness: a handle for job "1" exists; the store is empty. -/
theorem handle_hit_skips_store_witness :
    (isResults (.str "info") = false →
      ∃ st' effs, logStep 4 []
          ⟨[], [("1", ⟨"/o", "/o/output.yaml", "1.2", "/o/pipeline/1/1.2-foo.yaml", 0⟩)], none⟩
          ⟨"1", "1.2", "foo", "m",
           some (.map (.cons "lvl" (.str "info") (.cons "msg" (.str "a") .nil)))⟩
          = some (st', effs) ∧
        effs.filter LogEffect.isDb = [] ∧
        effs.filter LogEffect.isWrite =
          [.writeF "/o/output.yaml" ("- " ++ "m" ++ "\n"),
           .writeF (if ("1.2" : String) == "1.2" then "/o/pipeline/1/1.2-foo.yaml"
                    else sub_filename "/o" "1.2" "foo") ("- " ++ "m" ++ "\n")]) ∧
    (isResults (.str "info") = true →
      List.find? (fun j => toString j.id == "1") ([] : List TestJob) = none →
      ∃ st' effs, logStep 4 []
          ⟨[], [("1", ⟨"/o", "/o/output.yaml", "1.2", "/o/pipeline/1/1.2-foo.yaml", 0⟩)], none⟩
          ⟨"1", "1.2", "foo", "m",
           some (.map (.cons "lvl" (.str "info") (.cons "msg" (.str "a") .nil)))⟩
          = some (st', effs) ∧
        effs.filter LogEffect.isWrite = [] ∧
        effs.filter LogEffect.isDb = [.dbLookup "1"]) :=
  handle_hit_skips_store 4 []
    ⟨[], [("1", ⟨"/o", "/o/output.yaml", "1.2", "/o/pipeline/1/1.2-foo.yaml", 0⟩)], none⟩
    ⟨"1", "1.2", "foo", "m",
     some (.map (.cons "lvl" (.str "info") (.cons "msg" (.str "a") .nil)))⟩
    ⟨"/o", "/o/output.yaml", "1.2", "/o/pipeline/1/1.2-foo.yaml", 0⟩
    (.cons "lvl" (.str "info") (.cons "msg" (.str "a") .nil))
    (.str "info") (.str "a")
    (by decide) rfl (by decide) (by decide) (by decide) (by decide)

def LogEffect.isClose : LogEffect → Bool
  | .closeFile _ => true
  | _ => false

/-- A RUNNING pipeline job used by the log-ingestion scenarios. -/
def gc_job : TestJob :=
  { id := 1, status := JobStatus.Running, is_pipeline := true,
    worker_host := some "w1", output_dir := "/o", definition := [],
    pipeline_compatibility := 0 }

/-- The log state at thread start: both handle tables empty. -/
def empty_log_state : CommandLogState :=
  { cmdJobs := [], threadJobs := [], cmd_current_level := none }

/-- A well-formed log frame for job 1 at level `1.2`. -/
def gc_frame : LogFrame :=
  { job_id := "1", level := "1.2", name := "foo", message := "m",
    scanned := some (.map (.cons "lvl" (.str "info") (.cons "msg" (.str "a") .nil))) }

/-- C5 evidence: log ingestion at time 0 creates a handle for job 1 in
the thread-local table; the main-loop GC tick at time 100 — far past
`FD_TIMEOUT = 60` — closes nothing (it sweeps the `self.jobs` table,
which ingestion never populates), and the idle handle is still present
with `last_usage = 0`. -/
theorem gc_never_closes_ingestion_handles :
    (logStep 0 [gc_job] empty_log_state gc_frame).map
        (fun r => ((gcTick 100 r.1).1.threadJobs, (gcTick 100 r.1).2))
      = some ([("1", { output_dir := "/o", output := "/o/output.yaml",
                       current_level := "1.2",
                       sub_log := "/o/pipeline/1/1.2-foo.yaml",
                       last_usage := 0 })], []) := by
  rfl

/-- The second frame of the rotation scenario: same job, level `1.3`. -/
def rot_frame2 : LogFrame :=
  { job_id := "1", level := "1.3", name := "bar", message := "m",
    scanned := some (.map (.cons "lvl" (.str "info") (.cons "msg" (.str "a") .nil))) }

/-- C6 evidence: after the handle for job 1 is created at level `1.2`
and a frame at level `1.3` rotates the sub-sink, the handle's
`current_level` is still `1.2` (line 259 assigned the Command
attribute, not the handle), `self.current_level` got the new level
instead, and the next frame at the same level `1.3` rotates again —
its effects close the sub-sink that was just opened. -/
theorem rotation_updates_wrong_current_level :
    ((logStep 0 [gc_job] empty_log_state gc_frame).bind (fun r1 =>
      (logStep 1 [gc_job] r1.1 rot_frame2).bind (fun r2 =>
        (logStep 2 [gc_job] r2.1 rot_frame2).map (fun r3 =>
          ((alookup r2.1.threadJobs "1").map (fun h => h.current_level),
           r2.1.cmd_current_level,
           r3.2.filter LogEffect.isClose)))))
      = some (some "1.2", some "1.3",
              [.closeFile "/o/pipeline/1/1.3-bar.yaml"]) := by
  rfl

/-! ### The definition-export round trip -/

/-- C9: for a job whose definition parses to a structured mapping that
does not already bind `compatibility`, `export_definition` produces a
serialisation that parses back to exactly the original mapping extended
with the single binding `compatibility ↦ job.pipeline_compatibility`. -/
theorem export_definition_roundtrip (job : TestJob) (m : YMap)
    (hm : yload job.definition = some (.map m))
    (hk : hasKey m "compatibility" = false) :
    ∃ out, export_definition job = some out ∧
      yload out
        = some (.map (appendKV m "compatibility" (.int job.pipeline_compatibility))) := by
  unfold export_definition
  rw [hm]
  dsimp only
  refine ⟨_, rfl, ?_⟩
  rw [setKey_of_not_hasKey m _ _ hk]
  exact yload_ydump (.map (appendKV m "compatibility" (.int job.pipeline_compatibility)))

/-- C9 witness: a one-key definition round-trips with the injected
compatibility binding. -/
theorem export_definition_roundtrip_witness :
    ∃ out,
      export_definition
        { id := 9, status := JobStatus.Submitted, is_pipeline := true,
          worker_host := none, output_dir := "/o",
          definition := ydump (.map (.cons "x" (.int 5) .nil)),
          pipeline_compatibility := 3 } = some out ∧
      yload out
        = some (.map (appendKV (.cons "x" (.int 5) .nil) "compatibility" (.int 3))) :=
  export_definition_roundtrip
    { id := 9, status := JobStatus.Submitted, is_pipeline := true,
      worker_host := none, output_dir := "/o",
      definition := ydump (.map (.cons "x" (.int 5) .nil)),
      pipeline_compatibility := 3 }
    (.cons "x" (.int 5) .nil) (by decide) (by decide)

end DispatcherMaster


